import Mathlib

/-!
Verification of the UltraHDR JPEG library (src/wasm/src).

Bytes are modelled as natural numbers (a real byte is `< 256`); buffers are
`List Nat`. Machine-integer casts from the source (`as u16`, `to_le_bytes`)
are modelled with explicit `% 2 ^ w` arithmetic. Fallible Rust functions
returning `Result` become `Except`; a Rust panic (such as the arithmetic
underflow reachable in `JpegParser::parse`) is a distinguished error value.

The imperative cursor loops of `jpeg/parser.rs` are modelled as recursions
over the unread suffix of the input, carrying the absolute position for the
recorded segment offsets. The outer segment loop takes a fuel argument
(initialised to `data.length + 1`, enough because every iteration consumes
at least one input byte), and running out of fuel is a distinguished error.
-/

/-- Big-endian byte pair decoding, as in `u16::from_be_bytes`. -/
def be16get (h l : Nat) : Nat := h * 256 + l

/-- Big-endian encoding of `n as u16`, as in `(x as u16).to_be_bytes()`. -/
def be16 (n : Nat) : List Nat := [n % 65536 / 256, n % 256]

/-- Little-endian encoding of `n as u16`, as in `(x as u16).to_le_bytes()`. -/
def le16 (n : Nat) : List Nat := [n % 256, n % 65536 / 256]

/-- Little-endian encoding of `n as u32`, as in `(x as u32).to_le_bytes()`. -/
def le32 (n : Nat) : List Nat :=
  [n % 256, n / 256 % 256, n / 65536 % 256, n / 16777216 % 256]

/-- JPEG marker types, from `jpeg/parser.rs` (`enum MarkerType`). -/
inductive MarkerType where
  | Soi
  | Eoi
  | App0
  | App1
  | App2
  | AppN (n : Nat)
  | Sof0
  | Sof2
  | Dht
  | Dqt
  | Dri
  | Sos
  | Com
  | Other (b : Nat)
deriving DecidableEq, Repr

/-- Byte to marker, from `MarkerType::from_byte`. -/
def MarkerType.from_byte (byte : Nat) : MarkerType :=
  if byte = 0xD8 then .Soi
  else if byte = 0xD9 then .Eoi
  else if byte = 0xE0 then .App0
  else if byte = 0xE1 then .App1
  else if byte = 0xE2 then .App2
  else if 0xE3 ≤ byte ∧ byte ≤ 0xEF then .AppN (byte - 0xE0)
  else if byte = 0xC0 then .Sof0
  else if byte = 0xC2 then .Sof2
  else if byte = 0xC4 then .Dht
  else if byte = 0xDB then .Dqt
  else if byte = 0xDD then .Dri
  else if byte = 0xDA then .Sos
  else if byte = 0xFE then .Com
  else .Other byte

/-- Marker to byte, from `MarkerType::to_byte`. -/
def MarkerType.to_byte : MarkerType → Nat
  | .Soi => 0xD8
  | .Eoi => 0xD9
  | .App0 => 0xE0
  | .App1 => 0xE1
  | .App2 => 0xE2
  | .AppN n => 0xE0 + n
  | .Sof0 => 0xC0
  | .Sof2 => 0xC2
  | .Dht => 0xC4
  | .Dqt => 0xDB
  | .Dri => 0xDD
  | .Sos => 0xDA
  | .Com => 0xFE
  | .Other b => b

/-- Whether the marker carries a length field, from `MarkerType::has_length`. -/
def MarkerType.has_length : MarkerType → Bool
  | .Soi => false
  | .Eoi => false
  | .Other 0x00 => false
  | .Other 0xFF => false
  | _ => true

/-- A parsed JPEG segment, from `struct JpegSegment` (marker, payload bytes
excluding marker and length, source offset). -/
structure JpegSegment where
  marker : MarkerType
  data : List Nat
  offset : Nat
deriving DecidableEq, Repr

/-- The XMP namespace prefix bytes ending in NUL. -/
def xmpNamespaceBytes : List Nat :=
  ("http://ns.adobe.com/xap/1.0/".toList.map Char.toNat) ++ [0]

/-- The extended XMP namespace prefix bytes ending in NUL. -/
def extXmpNamespaceBytes : List Nat :=
  ("http://ns.adobe.com/xmp/extension/".toList.map Char.toNat) ++ [0]

/-- The Exif prefix bytes. -/
def exifPrefixBytes : List Nat :=
  ("Exif".toList.map Char.toNat) ++ [0, 0]

/-- The MPF prefix bytes ending in NUL. -/
def mpfPrefixBytes : List Nat := [77, 80, 70, 0]

/-- Whether a list starts with a pattern, as `<[u8]>::starts_with`. -/
def bytesStartWith (l pat : List Nat) : Bool := l.take pat.length == pat

/-- From `JpegSegment::is_xmp`. -/
def JpegSegment.is_xmp (s : JpegSegment) : Bool :=
  s.marker == .App1 && bytesStartWith s.data xmpNamespaceBytes

/-- From `JpegSegment::is_extended_xmp`. -/
def JpegSegment.is_extended_xmp (s : JpegSegment) : Bool :=
  s.marker == .App1 && bytesStartWith s.data extXmpNamespaceBytes

/-- From `JpegSegment::is_exif`. -/
def JpegSegment.is_exif (s : JpegSegment) : Bool :=
  s.marker == .App1 && bytesStartWith s.data exifPrefixBytes

/-- From `JpegSegment::is_mpf`. -/
def JpegSegment.is_mpf (s : JpegSegment) : Bool :=
  s.marker == .App2 && bytesStartWith s.data mpfPrefixBytes

/-- Error kinds of `UltraHdrError` relevant here, with a distinguished value
for a Rust panic (`underflowPanic`: the `len - 2` usize underflow in the SOS
branch of the parser) and for fuel exhaustion of the loop model. -/
inductive UltraHdrErr where
  | invalidJpeg
  | ioError
  | underflowPanic
  | xmpTooLarge
  | outOfFuel
deriving DecidableEq, Repr

/-- Result of `JpegParser::parse`: segment list, entropy-coded scan bytes and
the input offset where the scan started. -/
structure JpegParser where
  segments : List JpegSegment
  scan_data : List Nat
  scan_offset : Nat
deriving DecidableEq, Repr

/-- Result of the scan-mode loop inside `JpegParser::parse`: accumulated scan
bytes, remaining unread input, cursor position, and the offset of an EOI
segment when the scan ended at `FF D9`. -/
structure ScanOut where
  scan : List Nat
  rest : List Nat
  pos : Nat
  eoiAt : Option Nat
deriving DecidableEq, Repr

/-- The scan-mode loop of `JpegParser::parse` (lines 251..287): consumes
entropy-coded bytes, keeping `FF 00` stuffed pairs and `FF D0..FF D7`
restart markers, stopping at `FF D9` (EOI), at end of input, or rewinding
two bytes at any other `FF xx`. -/
def scanLoop : List Nat → Nat → List Nat → ScanOut
  | [], p, scan => ⟨scan, [], p, none⟩
  | b :: rest, p, scan =>
    if b = 255 then
      match rest with
      | [] => ⟨scan, [], p + 1, none⟩
      | x :: rest2 =>
        if x = 0 then scanLoop rest2 (p + 2) (scan ++ [255, 0])
        else if x = 217 then ⟨scan, rest2, p + 2, some p⟩
        else if 208 ≤ x ∧ x ≤ 215 then scanLoop rest2 (p + 2) (scan ++ [255, x])
        else ⟨scan, b :: rest, p, none⟩
    else scanLoop rest (p + 1) (scan ++ [b])

/-- The segment loop of `JpegParser::parse` (lines 194..312). Arguments:
fuel, unread input, absolute position of the next unread byte, accumulated
segments, accumulated scan bytes, current scan offset. -/
def parseLoop : Nat → List Nat → Nat → List JpegSegment → List Nat → Nat →
    Except UltraHdrErr JpegParser
  | 0, _, _, _, _, _ => .error .outOfFuel
  | _ + 1, [], _, segs, scan, so => .ok ⟨segs, scan, so⟩
  | fuel + 1, b :: rest, pos, segs, scan, so =>
    if b ≠ 255 then
      parseLoop fuel rest (pos + 1) segs scan so
    else
      let pad := (rest.takeWhile (fun x => x == 255)).length
      match rest.drop pad with
      | [] =>
        parseLoop fuel [] (pos + 1 + pad) (segs ++ [⟨.Other 255, [], pos⟩]) scan so
      | m :: rest2 =>
        let q := pos + 1 + pad
        match MarkerType.from_byte m with
        | .Eoi => .ok ⟨segs ++ [⟨.Eoi, [], q - 1⟩], scan, so⟩
        | .Soi => parseLoop fuel rest2 (q + 1) segs scan so
        | .Sos =>
          match rest2 with
          | hb :: lb :: rest3 =>
            let len := be16get hb lb
            if len < 2 then .error .underflowPanic
            else if rest3.length < len - 2 then .error .ioError
            else
              let so2 := q + 1 + len
              let s := scanLoop (rest3.drop (len - 2)) so2 scan
              let eoiSegs : List JpegSegment :=
                match s.eoiAt with
                | some e => [⟨.Eoi, [], e⟩]
                | none => []
              parseLoop fuel s.rest s.pos
                (segs ++ [⟨.Sos, rest3.take (len - 2), pos⟩] ++ eoiSegs) s.scan so2
          | _ => .error .ioError
        | mk =>
          if mk.has_length then
            match rest2 with
            | hb :: lb :: rest3 =>
              let len := be16get hb lb
              if len < 2 then .error .invalidJpeg
              else if rest3.length < len - 2 then .error .ioError
              else
                parseLoop fuel (rest3.drop (len - 2)) (q + 1 + len)
                  (segs ++ [⟨mk, rest3.take (len - 2), pos⟩]) scan so
            | _ => .error .ioError
          else parseLoop fuel rest2 (q + 1) (segs ++ [⟨mk, [], pos⟩]) scan so

/-- From `JpegParser::parse` (lines 173..319): magic-byte checks, then the
segment loop starting after the two SOI bytes with the SOI segment recorded. -/
def JpegParser.parse (data : List Nat) : Except UltraHdrErr JpegParser :=
  if data.length < 2 then .error .invalidJpeg
  else if data.getD 0 0 ≠ 255 ∨ data.getD 1 0 ≠ 216 then .error .invalidJpeg
  else parseLoop (data.length + 1) (data.drop 2) 2 [⟨.Soi, [], 0⟩] [] 0

/-- From `JpegParser::find_xmp_segment`. -/
def find_xmp_segment (segs : List JpegSegment) : Option JpegSegment :=
  segs.find? (fun s => s.is_xmp)

/-- From `JpegParser::find_mpf_segment`. -/
def find_mpf_segment (segs : List JpegSegment) : Option JpegSegment :=
  segs.find? (fun s => s.is_mpf)

/-- From `JpegParser::find_sof_segment`. -/
def find_sof_segment (segs : List JpegSegment) : Option JpegSegment :=
  segs.find? (fun s => s.marker == .Sof0 || s.marker == .Sof2)

/-- From `JpegParser::get_dimensions`: big-endian height at payload bytes
1..3 and width at 3..5 of the SOF segment. -/
def get_dimensions (segs : List JpegSegment) : Option (Nat × Nat) :=
  match find_sof_segment segs with
  | none => none
  | some sof =>
    if sof.data.length < 5 then none
    else some (be16get (sof.data.getD 3 0) (sof.data.getD 4 0),
               be16get (sof.data.getD 1 0) (sof.data.getD 2 0))

/-- Insert an element at an index of a list (at the end when the index is
past the end), as `Vec::insert` is used by the writer. -/
def insertAt (i : Nat) (a : α) : List α → List α
  | [] => [a]
  | b :: rest =>
    match i with
    | 0 => a :: b :: rest
    | j + 1 => b :: insertAt j a rest

/-- Serialization of one segment by `JpegWriter::write` (lines 134..160):
SOI and EOI are skipped, an SOS segment is followed by the scan bytes, a
length-bearing segment gets a big-endian `payload + 2` length word. -/
def writeSegBytes (scan_data : List Nat) (s : JpegSegment) : List Nat :=
  match s.marker with
  | .Soi => []
  | .Eoi => []
  | .Sos => [255, 218] ++ be16 (s.data.length + 2) ++ s.data ++ scan_data
  | mk =>
    if mk.has_length then [255, mk.to_byte] ++ be16 (s.data.length + 2) ++ s.data
    else [255, mk.to_byte]

/-- From `JpegWriter::write` (lines 128..166): `FF D8`, the serialized
segments, then `FF D9`. -/
def JpegWriter.write (segments : List JpegSegment) (scan_data : List Nat) : List Nat :=
  [255, 216] ++ (segments.map (writeSegBytes scan_data)).flatten ++ [255, 217]

/-- From `JpegWriter::write_with_gain_map`. -/
def write_with_gain_map (segments : List JpegSegment) (scan_data gain_map_jpeg : List Nat) :
    List Nat :=
  JpegWriter.write segments scan_data ++ gain_map_jpeg

/-- From `JpegWriter::find_xmp_insert_position` (lines 179..189), with the
running index made explicit. -/
def find_xmp_insert_position : List JpegSegment → Nat → Nat
  | [], i => i
  | s :: rest, i =>
    match s.marker with
    | .Soi => find_xmp_insert_position rest (i + 1)
    | .App0 => find_xmp_insert_position rest (i + 1)
    | .App1 =>
      if s.is_exif then find_xmp_insert_position rest (i + 1) else i
    | _ => i

/-- Index of the last App1 segment, for `find_mpf_insert_position`. -/
def find_last_app1 : List JpegSegment → Nat → Option Nat
  | [], _ => none
  | s :: rest, i =>
    match find_last_app1 rest (i + 1) with
    | some j => some j
    | none => if s.marker == .App1 then some i else none

/-- Index of the first App0 segment, for `find_mpf_insert_position`. -/
def find_first_app0 : List JpegSegment → Nat → Option Nat
  | [], _ => none
  | s :: rest, i =>
    if s.marker == .App0 then some i else find_first_app0 rest (i + 1)

/-- From `JpegWriter::find_mpf_insert_position` (lines 201..216): after the
last App1, else after the first App0, else index 1 (after SOI). -/
def find_mpf_insert_position (segs : List JpegSegment) : Nat :=
  match find_last_app1 segs 0 with
  | some i => i + 1
  | none =>
    match find_first_app0 segs 0 with
    | some i => i + 1
    | none => 1

/-- From `JpegWriter::add_xmp_segment` (lines 43..63): prepend the XMP
namespace to the payload, reject a payload that would overflow the 16-bit
segment length, insert as App1 at the XMP insert position. -/
def add_xmp_segment (segs : List JpegSegment) (xmp_data : List Nat) :
    Except UltraHdrErr (List JpegSegment) :=
  if xmp_data.length + xmpNamespaceBytes.length > 65533 then .error .xmpTooLarge
  else
    let seg : JpegSegment := ⟨.App1, xmpNamespaceBytes ++ xmp_data, 0⟩
    .ok (insertAt (find_xmp_insert_position segs 0) seg segs)

/-- From `create_mpf_data` (jpeg/writer.rs lines 220..275), byte for byte.
The second IFD entry writes its type field with `4u32.to_le_bytes()` (four
bytes) and the third entry stores the MP-entry offset `8 + 2 + 3*12 + 4`. -/
def create_mpf_data (gain_map_offset gain_map_size : Nat) : List Nat :=
  mpfPrefixBytes
    ++ [73, 73]
    ++ [0x2A, 0x00]
    ++ le32 8
    ++ le16 3
    ++ le16 0xB000 ++ le16 7 ++ le32 4 ++ [48, 49, 48, 48]
    ++ le16 0xB001 ++ le32 4 ++ le32 1 ++ le32 2
    ++ le16 0xB002 ++ le16 7 ++ le32 32 ++ le32 (8 + 2 + 3 * 12 + 4)
    ++ le32 0
    ++ le32 0x20030000 ++ le32 0 ++ le32 0 ++ le16 0 ++ le16 0
    ++ le32 0x00030000 ++ le32 gain_map_size ++ le32 gain_map_offset ++ le16 0 ++ le16 0

/-- From `JpegWriter::add_mpf_segment` (lines 100..109). -/
def add_mpf_segment (segs : List JpegSegment) (gain_map_offset gain_map_size : Nat) :
    List JpegSegment :=
  insertAt (find_mpf_insert_position segs)
    ⟨.App2, create_mpf_data gain_map_offset gain_map_size, 0⟩ segs

/-- From `JpegWriter::remove_xmp_segments`. -/
def remove_xmp_segments (segs : List JpegSegment) : List JpegSegment :=
  segs.filter (fun s => !s.is_xmp && !s.is_extended_xmp)

/-- From `JpegWriter::remove_mpf_segments`. -/
def remove_mpf_segments (segs : List JpegSegment) : List JpegSegment :=
  segs.filter (fun s => !s.is_mpf)

/-- From `create_ultrahdr_jpeg` (ultrahdr/encoder.rs lines 151..197), with
the XMP payload bytes taken as a parameter in place of the call to
`XmpWriter::create_combined_xmp` / `create_iso_xmp` (the XMP serializer is
deterministic and its output only enters this function as an opaque byte
buffer). Mirrors the source step for step: parse the SDR JPEG, drop XMP and
MPF segments, insert the XMP segment, serialize to get `base_jpeg`, re-parse
it, insert the MPF segment with `gain_map_offset = base_jpeg.len() + 120`
(the source constant `estimated_mpf_size`), serialize and append the gain
map. -/
def create_ultrahdr_jpeg (sdr_jpeg gain_map_jpeg xmp_data : List Nat) :
    Except UltraHdrErr (List Nat) := do
  let parser ← JpegParser.parse sdr_jpeg
  let segs := remove_mpf_segments (remove_xmp_segments parser.segments)
  let segs ← add_xmp_segment segs xmp_data
  let base_jpeg := JpegWriter.write segs parser.scan_data
  let gain_map_offset := base_jpeg.length
  let parser2 ← JpegParser.parse base_jpeg
  let estimated_mpf_size := 120
  let final_gain_map_offset := gain_map_offset + estimated_mpf_size
  let segs2 := add_mpf_segment parser2.segments final_gain_map_offset gain_map_jpeg.length
  pure (write_with_gain_map segs2 parser2.scan_data gain_map_jpeg)

/-- Bounds-checked 16-bit read of `parse_mpf_for_gainmap` (`read_u16`). -/
def readU16 (le : Bool) (data : List Nat) (o : Nat) : Option Nat :=
  if o + 2 > data.length then none
  else if le then some (data.getD o 0 + 256 * data.getD (o + 1) 0)
  else some (256 * data.getD o 0 + data.getD (o + 1) 0)

/-- Bounds-checked 32-bit read of `parse_mpf_for_gainmap` (`read_u32`). -/
def readU32 (le : Bool) (data : List Nat) (o : Nat) : Option Nat :=
  if o + 4 > data.length then none
  else if le then
    some (data.getD o 0 + 256 * data.getD (o + 1) 0 + 65536 * data.getD (o + 2) 0
      + 16777216 * data.getD (o + 3) 0)
  else
    some (16777216 * data.getD o 0 + 65536 * data.getD (o + 1) 0
      + 256 * data.getD (o + 2) 0 + data.getD (o + 3) 0)

/-- Outcome of the IFD entry loop in `parse_mpf_for_gainmap`: the MPEntry
tag was found (count and offset read), the loop finished without it, or a
bounds failure of a `read_*` call propagated `None`. -/
inductive MpfLoopRes where
  | found (cnt off : Nat)
  | notFound
  | propagateNone
deriving DecidableEq, Repr

/-- The `for i in 0..entry_count` loop of `parse_mpf_for_gainmap` (decoder.rs
lines 359..373): entries are visited at a fixed 12-byte stride from
`ifd_offset + 2`, stopping at the first tag `0xB002`. -/
def mpfFindLoop (le : Bool) (data : List Nat) (ifd : Nat) : Nat → Nat → MpfLoopRes
  | _, 0 => .notFound
  | i, rem + 1 =>
    let entry_start := ifd + 2 + i * 12
    if entry_start + 12 > data.length then .notFound
    else
      match readU16 le data entry_start with
      | none => .propagateNone
      | some tag =>
        if tag = 0xB002 then
          match readU32 le data (entry_start + 4), readU32 le data (entry_start + 8) with
          | some c, some o => .found c o
          | _, _ => .propagateNone
        else mpfFindLoop le data ifd (i + 1) rem

/-- From `parse_mpf_for_gainmap` (ultrahdr/decoder.rs lines 299..391). -/
def parse_mpf_for_gainmap (mpf_data : List Nat) : Option (Nat × Nat) :=
  if mpf_data.length < 4 then none
  else if mpf_data.take 4 ≠ mpfPrefixBytes then none
  else
    let data := mpf_data.drop 4
    if data.length < 8 then none
    else
      let le := data.getD 0 0 == 73 && data.getD 1 0 == 73
      match readU32 le data 4 with
      | none => none
      | some ifd_offset =>
        if ifd_offset ≥ data.length then none
        else
          match readU16 le data ifd_offset with
          | none => none
          | some entry_count =>
            match mpfFindLoop le data ifd_offset 0 entry_count with
            | .propagateNone => none
            | .notFound => none
            | .found cnt off =>
              let count := cnt / 16
              if 2 ≤ count then
                let second := off + 16
                if second + 16 ≤ data.length then
                  match readU32 le data (second + 4), readU32 le data (second + 8) with
                  | some size, some offset => some (offset, size)
                  | _, _ => none
                else none
              else none

/-- From `has_gainmap_metadata` (ultrahdr/decoder.rs lines 110..129). The
check of the XMP payload (`XmpParser::has_gain_map_metadata`, a UTF-8
substring test) is a parameter: every theorem below holds for an arbitrary
such predicate. `none` models a propagated parser panic. -/
def has_gainmap_metadata (xmpCheck : List Nat → Bool) (data : List Nat) : Option Bool :=
  if data.length < 2 || data.getD 0 0 != 255 || data.getD 1 0 != 216 then some false
  else
    match JpegParser.parse data with
    | .error .underflowPanic => none
    | .error _ => some false
    | .ok parser =>
      match find_xmp_segment parser.segments with
      | some seg =>
        if seg.is_xmp then some (xmpCheck (seg.data.drop 29))
        else some ((find_mpf_segment parser.segments).isSome)
      | none => some ((find_mpf_segment parser.segments).isSome)

/-- From `is_ultra_hdr` (lib.rs lines 60..63): delegates to
`has_gainmap_metadata`. -/
def is_ultra_hdr (xmpCheck : List Nat → Bool) (data : List Nat) : Option Bool :=
  has_gainmap_metadata xmpCheck data

/-- From `struct UltraHdrProbeResult` (types.rs). -/
structure UltraHdrProbeResult where
  is_valid : Bool
  has_primary_image : Bool
  has_gain_map : Bool
  has_metadata : Bool
  width : Nat
  height : Nat
  gain_map_width : Nat
  gain_map_height : Nat
  hdr_capacity : ℚ
  metadata_version : String
deriving DecidableEq, Repr

/-- The all-zeros `Default` of `UltraHdrProbeResult`. -/
def UltraHdrProbeResult.zero : UltraHdrProbeResult :=
  ⟨false, false, false, false, 0, 0, 0, 0, 0, ""⟩

/-- From `probe` (ultrahdr/decoder.rs lines 22..71). The post-parse filling
of the result (dimensions, XMP metadata, gain-map probing) is a parameter
`post`; the theorems below hold for every such continuation, in particular
for the real one. A Rust panic raised by `JpegParser::parse` propagates out
of `probe` and is modelled as `none`. -/
def probe (post : JpegParser → UltraHdrProbeResult → UltraHdrProbeResult)
    (data : List Nat) : Option UltraHdrProbeResult :=
  if data.length < 2 || data.getD 0 0 != 255 || data.getD 1 0 != 216 then
    some UltraHdrProbeResult.zero
  else
    let r1 := { UltraHdrProbeResult.zero with has_primary_image := true }
    match JpegParser.parse data with
    | .error .underflowPanic => none
    | .error _ => some r1
    | .ok parser => some (post parser r1)

/-- From `struct GainMapMetadata` (types.rs). The `f32` values are modelled
as rationals: `validate_metadata` and `MetadataComputer::compute` only
compare, min/max, add and subtract them, so their branching structure is
identical over any ordered field (NaN inputs aside). -/
structure GainMapMetadata where
  version : String
  base_rendition_is_hdr : Bool
  gain_map_min : List ℚ
  gain_map_max : List ℚ
  gamma : List ℚ
  offset_sdr : List ℚ
  offset_hdr : List ℚ
  hdr_capacity_min : ℚ
  hdr_capacity_max : ℚ
deriving DecidableEq, Repr

/-- The two error kinds produced by `validate_metadata`: `MetadataError`
and `InvalidHdrCapacity` (messages dropped). -/
inductive MetaErr where
  | metadata
  | invalidHdrCapacity
deriving DecidableEq, Repr

/-- From `validate_metadata` (gainmap/metadata.rs lines 9..71), with the two
`for i in 0..3` loops unrolled (they run after the length checks have
established length 3). -/
def validate_metadata (m : GainMapMetadata) : Except MetaErr Unit :=
  if m.gain_map_min.length ≠ 3 then .error .metadata
  else if m.gain_map_max.length ≠ 3 then .error .metadata
  else if m.gamma.length ≠ 3 then .error .metadata
  else if m.offset_sdr.length ≠ 3 then .error .metadata
  else if m.offset_hdr.length ≠ 3 then .error .metadata
  else if m.gain_map_min.getD 0 0 > m.gain_map_max.getD 0 0 then .error .metadata
  else if m.gain_map_min.getD 1 0 > m.gain_map_max.getD 1 0 then .error .metadata
  else if m.gain_map_min.getD 2 0 > m.gain_map_max.getD 2 0 then .error .metadata
  else if m.gamma.getD 0 0 ≤ 0 then .error .metadata
  else if m.gamma.getD 1 0 ≤ 0 then .error .metadata
  else if m.gamma.getD 2 0 ≤ 0 then .error .metadata
  else if m.hdr_capacity_min > m.hdr_capacity_max then .error .invalidHdrCapacity
  else .ok ()

/-- The length/gain/gamma failure condition of claim C6 (reported as the
`metadata` kind). -/
def metaBadCond (m : GainMapMetadata) : Prop :=
  (m.gain_map_min.length ≠ 3 ∨ m.gain_map_max.length ≠ 3 ∨ m.gamma.length ≠ 3 ∨
    m.offset_sdr.length ≠ 3 ∨ m.offset_hdr.length ≠ 3) ∨
  (∃ i, i < 3 ∧ m.gain_map_min.getD i 0 > m.gain_map_max.getD i 0) ∨
  (∃ i, i < 3 ∧ m.gamma.getD i 0 ≤ 0)

/-- The hdr-capacity failure condition of claim C6 (reported as the
`invalidHdrCapacity` kind). -/
def capBadCond (m : GainMapMetadata) : Prop :=
  m.hdr_capacity_min > m.hdr_capacity_max

/-- From `struct MetadataComputer` (gainmap/metadata.rs). A per-channel
running minimum and maximum of observed log2 ratios. The source initialises
the fields with the sentinels `f32::MAX` / `f32::MIN` and `compute` tests
`< f32::MAX` / `> f32::MIN`; an accepted sample is the log2 of a finite
positive `f32` ratio and can never reach the sentinels, so the sentinel
state is modelled as `none`. -/
structure MetadataComputer where
  min_ratios : Fin 3 → Option ℚ
  max_ratios : Fin 3 → Option ℚ
  sample_count : Nat

/-- From `MetadataComputer::new`. -/
def MetadataComputer.new : MetadataComputer :=
  ⟨fun _ => none, fun _ => none, 0⟩

/-- From `MetadataComputer::add_sample` (lines 94..104). The floating-point
front end (ratio computation, finiteness/positivity guard, `log2`) is
abstracted: a sample is the per-channel accepted log2 ratio, `none` when the
guard `ratio > 0.0 && ratio.is_finite()` rejected the channel. -/
def MetadataComputer.add_sample (s : MetadataComputer) (logRatio : Fin 3 → Option ℚ) :
    MetadataComputer where
  min_ratios := fun i =>
    match logRatio i, s.min_ratios i with
    | none, v => v
    | some v, none => some v
    | some v, some w => some (min w v)
  max_ratios := fun i =>
    match logRatio i, s.max_ratios i with
    | none, v => v
    | some v, none => some v
    | some v, some w => some (max w v)
  sample_count := s.sample_count + 1

/-- From `MetadataComputer::compute` (lines 107..134). -/
def MetadataComputer.compute (s : MetadataComputer) (target_capacity : ℚ) :
    GainMapMetadata where
  version := "1.0"
  base_rendition_is_hdr := false
  gain_map_min :=
    (List.finRange 3).map fun i =>
      match s.min_ratios i with
      | some v => max (v - 1/10) (-2)
      | none => 0
  gain_map_max :=
    (List.finRange 3).map fun i =>
      match s.max_ratios i with
      | some v => min (v + 1/10) (target_capacity + 1)
      | none => target_capacity
  gamma := [1, 1, 1]
  offset_sdr := [1/64, 1/64, 1/64]
  offset_hdr := [1/64, 1/64, 1/64]
  hdr_capacity_min := 0
  hdr_capacity_max := target_capacity

/-- Running fold for an optional extremum (the claim-side notion of the
observed minimum/maximum over a sample stream). -/
def optFold (op : ℚ → ℚ → ℚ) : Option ℚ → ℚ → Option ℚ
  | none, v => some v
  | some w, v => some (op w v)

/-- Claim-side observed minimum of the accepted channel-`i` log ratios of a
sample stream. -/
def observedMin (samples : List (Fin 3 → Option ℚ)) (i : Fin 3) : Option ℚ :=
  (samples.filterMap (fun f => f i)).foldl (optFold min) none

/-- Claim-side observed maximum of the accepted channel-`i` log ratios of a
sample stream. -/
def observedMax (samples : List (Fin 3 → Option ℚ)) (i : Fin 3) : Option ℚ :=
  (samples.filterMap (fun f => f i)).foldl (optFold max) none

/-- An abstract description of one non-SOI/EOI/SOS segment of a JPEG input:
marker byte and payload. -/
structure MidSeg where
  m : Nat
  payload : List Nat
deriving DecidableEq, Repr

/-- The wire form of a `MidSeg`: marker, big-endian `payload + 2` length
word, payload. -/
def encMid (s : MidSeg) : List Nat :=
  [255, s.m] ++ be16 (s.payload.length + 2) ++ s.payload

/-- Well-formedness of a `MidSeg` for claim C4: a real marker byte that is
not a padding/stuffing byte (`00`, `FF`), not SOI/EOI/SOS (`D8`, `D9`,
`DA`), and not progressive SOF2 (`C2`, excluded by the claim); a payload
that fits the 16-bit length field. -/
def MidSeg.wf (s : MidSeg) : Prop :=
  s.m < 256 ∧ s.m ≠ 0x00 ∧ s.m ≠ 0xC2 ∧ s.m ≠ 0xD8 ∧ s.m ≠ 0xD9 ∧ s.m ≠ 0xDA ∧
    s.m ≠ 0xFF ∧ s.payload.length ≤ 65533 ∧ ∀ b ∈ s.payload, b < 256

/-- Well-formed entropy-coded scan bytes: every `FF` is followed by a
stuffed `00` or a restart marker `D0..D7`, and the scan does not end in a
dangling `FF`. -/
def wfScan : List Nat → Bool
  | [] => true
  | b :: rest =>
    if b = 255 then
      match rest with
      | [] => false
      | x :: rest2 => (x == 0 || (decide (208 ≤ x) && decide (x ≤ 215))) && wfScan rest2
    else decide (b < 256) && wfScan rest

/-- A single-scan JPEG input byte stream: SOI, the wire forms of the middle
segments, one SOS segment with its payload, the entropy-coded scan, EOI. -/
def fileOf (mids : List MidSeg) (sosPayload scan : List Nat) : List Nat :=
  [255, 216] ++ (mids.map encMid).flatten ++ [255, 218] ++ be16 (sosPayload.length + 2)
    ++ sosPayload ++ scan ++ [255, 217]

/-- The segments the parser records for a list of middle segments starting
at input position `pos`. -/
def midSegsFrom : Nat → List MidSeg → List JpegSegment
  | _, [] => []
  | pos, s :: rest =>
    ⟨MarkerType.from_byte s.m, s.payload, pos⟩ :: midSegsFrom (pos + (encMid s).length) rest

/-- The JPEG-File-Model invariant of claim C8: first segment SOI, last
segment EOI, at most one SOS segment. -/
def fileModelInvariant (r : JpegParser) : Prop :=
  r.segments.head?.map (fun s => s.marker) = some .Soi ∧
  r.segments.getLast?.map (fun s => s.marker) = some .Eoi ∧
  r.segments.countP (fun s => s.marker == .Sos) ≤ 1


/-- The TIFF portion of the writer's MPF payload (everything after the
`MPF\0` magic), flattened to one literal: proved equal to the output of
`create_mpf_data` below. -/
def mpfTiff (off size : Nat) : List Nat :=
    [73, 73, 42, 0, 8, 0, 0, 0, 3, 0,
     0, 176, 7, 0, 4, 0, 0, 0, 48, 49, 48, 48,
     1, 176, 4, 0, 0, 0, 1, 0, 0, 0, 2, 0, 0, 0,
     2, 176, 7, 0, 32, 0, 0, 0, 50, 0, 0, 0,
     0, 0, 0, 0,
     0, 0, 3, 32, 0, 0, 0, 0, 0, 0, 0, 0, 0, 0, 0, 0,
     0, 0, 3, 0,
     size % 256, size / 256 % 256, size / 65536 % 256, size / 16777216 % 256,
     off % 256, off / 256 % 256, off / 65536 % 256, off / 16777216 % 256,
     0, 0, 0, 0]

/-- The full MPF payload in flattened literal form. -/
def mpfBytes (off size : Nat) : List Nat := 77 :: 80 :: 70 :: 0 :: mpfTiff off size

set_option maxRecDepth 4000 in
theorem create_mpf_data_eq (off size : Nat) :
    create_mpf_data off size = mpfBytes off size := by
  simp [create_mpf_data, mpfPrefixBytes, le16, le32, mpfTiff, mpfBytes]

theorem mpfTiff_length (off size : Nat) : (mpfTiff off size).length = 84 := by
  simp [mpfTiff]

theorem mpfFindLoop_eq_succ (le : Bool) (data : List Nat) (ifd i rem : Nat) :
    mpfFindLoop le data ifd i (rem + 1) =
      (if ifd + 2 + i * 12 + 12 > data.length then .notFound
      else
        match readU16 le data (ifd + 2 + i * 12) with
        | none => .propagateNone
        | some tag =>
          if tag = 0xB002 then
            match readU32 le data (ifd + 2 + i * 12 + 4),
                readU32 le data (ifd + 2 + i * 12 + 8) with
            | some c, some o => .found c o
            | _, _ => .propagateNone
          else mpfFindLoop le data ifd (i + 1) rem) := rfl

theorem mpfFindLoop_step (le : Bool) (data : List Nat) (ifd i rem : Nat)
    (tag : Nat) (hb : ¬ (ifd + 2 + i * 12 + 12 > data.length))
    (ht : readU16 le data (ifd + 2 + i * 12) = some tag) (hne : tag ≠ 0xB002) :
    mpfFindLoop le data ifd i (rem + 1) = mpfFindLoop le data ifd (i + 1) rem := by
  rw [mpfFindLoop_eq_succ, if_neg hb, ht]
  exact if_neg hne

theorem mpfFindLoop_writer_tags (d : List Nat) (hlen : d.length = 84)
    (h0 : readU16 true d 10 = some 45056) (h1 : readU16 true d 22 = some 45057)
    (h2 : readU16 true d 34 = some 0) :
    mpfFindLoop true d 8 0 3 = .notFound := by
  rw [show (3 : Nat) = 2 + 1 from rfl,
    mpfFindLoop_step true d 8 0 2 45056 (by omega)
      (by rw [show 8 + 2 + 0 * 12 = 10 from rfl, h0]) (by omega)]
  rw [show (2 : Nat) = 1 + 1 from rfl,
    mpfFindLoop_step true d 8 (0 + 1) 1 45057 (by omega)
      (by rw [show 8 + 2 + (0 + 1) * 12 = 22 from rfl, h1]) (by omega)]
  rw [show (1 : Nat) = 0 + 1 from rfl,
    mpfFindLoop_step true d 8 (0 + 1 + 1) 0 0 (by omega)
      (by rw [show 8 + 2 + (0 + 1 + 1) * 12 = 34 from rfl, h2]) (by omega)]
  rfl

theorem parse_mpf_none_of (l dat : List Nat) (ifd cnt : Nat)
    (h4 : ¬ l.length < 4) (hp : l.take 4 = mpfPrefixBytes) (hd : l.drop 4 = dat)
    (h8 : ¬ dat.length < 8)
    (hle : (dat.getD 0 0 == 73 && dat.getD 1 0 == 73) = true)
    (hifd : readU32 true dat 4 = some ifd) (hlt : ¬ ifd ≥ dat.length)
    (hcnt : readU16 true dat ifd = some cnt)
    (hloop : mpfFindLoop true dat ifd 0 cnt = .notFound) :
    parse_mpf_for_gainmap l = none := by
  simp only [parse_mpf_for_gainmap, hd, hle]
  rw [if_neg h4, if_neg (by simp [hp]), if_neg h8, hifd]
  simp only [hifd, Option.some.injEq]
  rw [if_neg hlt]
  simp only [hcnt, hloop]

theorem mpfBytes_len (off size : Nat) : ¬ (mpfBytes off size).length < 4 := by
  norm_num [mpfBytes, mpfTiff]

theorem mpfBytes_take4 (off size : Nat) : (mpfBytes off size).take 4 = mpfPrefixBytes := rfl

theorem mpfBytes_dropped (off size : Nat) : (mpfBytes off size).drop 4 = mpfTiff off size := rfl

theorem mpfTiff_length_ge8 (off size : Nat) : ¬ (mpfTiff off size).length < 8 := by
  rw [mpfTiff_length]; omega

theorem mpfTiff_le_bytes (off size : Nat) :
    ((mpfTiff off size).getD 0 0 == 73 && (mpfTiff off size).getD 1 0 == 73) = true := rfl

theorem mpfTiff_ifd (off size : Nat) : readU32 true (mpfTiff off size) 4 = some 8 := by
  norm_num [readU32, mpfTiff]

theorem mpfTiff_ifd_lt (off size : Nat) : ¬ (8 ≥ (mpfTiff off size).length) := by
  rw [mpfTiff_length]; omega

theorem mpfTiff_count (off size : Nat) : readU16 true (mpfTiff off size) 8 = some 3 := by
  norm_num [readU16, mpfTiff]

theorem mpfTiff_tag0 (off size : Nat) : readU16 true (mpfTiff off size) 10 = some 45056 := by
  norm_num [readU16, mpfTiff]

theorem mpfTiff_tag1 (off size : Nat) : readU16 true (mpfTiff off size) 22 = some 45057 := by
  norm_num [readU16, mpfTiff]

theorem mpfTiff_tag2 (off size : Nat) : readU16 true (mpfTiff off size) 34 = some 0 := by
  norm_num [readU16, mpfTiff]

/-- C9: the MPF reader of the decoder walks the IFD entries at a fixed
12-byte stride, so on the writer's own MPF payload it reads the tags 0xB000,
0xB001 and 0x0000 (the last middle of the oversized second entry) and never
finds the MPEntry tag 0xB002: no (offset, size) pair is ever recovered, for
every gain-map offset and size. -/
theorem parse_mpf_on_writer_output_none (off size : Nat) :
    parse_mpf_for_gainmap (create_mpf_data off size) = none := by
  rw [create_mpf_data_eq]
  exact parse_mpf_none_of (mpfBytes off size) (mpfTiff off size) 8 3
    (mpfBytes_len off size) (mpfBytes_take4 off size) (mpfBytes_dropped off size)
    (mpfTiff_length_ge8 off size) (mpfTiff_le_bytes off size) (mpfTiff_ifd off size)
    (mpfTiff_ifd_lt off size) (mpfTiff_count off size)
    (mpfFindLoop_writer_tags (mpfTiff off size) (mpfTiff_length off size)
      (mpfTiff_tag0 off size) (mpfTiff_tag1 off size) (mpfTiff_tag2 off size))

/-- C2, counterexample: at offset 1000 and size 500 the MPEntry IFD entry of
the writer's MPF payload does not store the value 46 (payload bytes 48..52,
the value field of the third IFD entry, hold little-endian 50), and the
bytes at TIFF offset 46 (payload index 50) are not the first MP entry
(whose flags word is 0x20030000). -/
theorem create_mpf_data_not_46 :
    ((create_mpf_data 1000 500).drop 48).take 4 ≠ le32 46 ∧
    ((create_mpf_data 1000 500).drop 50).take 4 ≠ le32 0x20030000 := by decide

/-- C2, amended: the writer stores the MP-entry offset value
`8 + 2 + 3 * 12 + 4 = 50` in the MPEntry IFD entry, but the second IFD entry
serializes its type field with `4u32.to_le_bytes()` (four bytes, payload
bytes 28..32 are `[4,0,0,0]`) so the three entries occupy 12 + 14 + 12
bytes and the MP-entry table physically begins at offset 52 from the TIFF
header (payload index 56), not at the stored 50 (payload index 54). -/
theorem create_mpf_data_layout (off size : Nat) :
    ((create_mpf_data off size).drop 48).take 4 = le32 50 ∧
    ((create_mpf_data off size).drop 28).take 4 = [4, 0, 0, 0] ∧
    ((create_mpf_data off size).drop 56).take 4 = le32 0x20030000 ∧
    ((create_mpf_data off size).drop 54).take 4 ≠ le32 0x20030000 ∧
    (create_mpf_data off size).length = 88 := by
  rw [create_mpf_data_eq]
  refine ⟨?_, ?_, ?_, ?_, ?_⟩ <;> norm_num [mpfBytes, mpfTiff, le32]

/-- C3: probe is not total. On the input `FF D8 FF DA 00 00` (an SOS marker
whose 16-bit length field is 0, hence less than 2) the parser computes
`len - 2` on a usize without the `len < 2` guard present in the non-SOS
branch, an arithmetic underflow that propagates out of probe as a panic,
whatever the post-parse continuation does. -/
theorem probe_short_sos_len_panics
    (post : JpegParser → UltraHdrProbeResult → UltraHdrProbeResult) :
    probe post [255, 216, 255, 218, 0, 0] = none := rfl

/-- C1: on a concrete encode (SDR JPEG `FF D8 FF D9`, gain-map JPEG
`FF D8 FF D9`, XMP payload one byte), the produced UltraHDR file is 134
bytes: a 38-byte base (SOI, XMP APP1, EOI) plus the 92-byte MPF APP2
segment plus the 4-byte gain map, which therefore begins at byte 130. The
MP entry for the gain map (declared offset at file bytes 120..124, declared
size at 116..120) stores offset 158 = 38 + 120 (the hard-coded
`estimated_mpf_size`) and size 4: the declared slice 158..162 does not
start at the gain map and even exceeds the file length. -/
theorem create_ultrahdr_jpeg_declared_offset_wrong :
    (create_ultrahdr_jpeg [255, 216, 255, 217] [255, 216, 255, 217] [97]).map
      (fun out => (out.length, (out.drop 120).take 4, (out.drop 116).take 4, out.drop 130)) =
    .ok (134, le32 158, le32 4, [255, 216, 255, 217]) := rfl

/-- A small helper: a successful parse implies the input passed the JPEG
magic-byte checks. -/
theorem parse_ok_magic (data : List Nat) (r : JpegParser)
    (h : JpegParser.parse data = .ok r) :
    ¬ data.length < 2 ∧ data.getD 0 0 = 255 ∧ data.getD 1 0 = 216 := by
  unfold JpegParser.parse at h
  split_ifs at h with h1 h2
  · push_neg at h2
    exact ⟨h1, h2⟩

/-- C10: when the input parses as a JPEG, carries no XMP APP1 segment and
carries an APP2 segment whose payload begins with `MPF\0`, `is_ultra_hdr`
returns true, whatever the XMP metadata predicate would say: the MPF
segment alone is taken as the gain-map indicator, with no hdrgm metadata
anywhere in the file. -/
theorem is_ultra_hdr_true_of_mpf_without_xmp
    (xmpCheck : List Nat → Bool) (data : List Nat) (r : JpegParser)
    (hp : JpegParser.parse data = .ok r)
    (hxmp : find_xmp_segment r.segments = none)
    (hmpf : (find_mpf_segment r.segments).isSome) :
    is_ultra_hdr xmpCheck data = some true := by
  obtain ⟨h2, h0, h1⟩ := parse_ok_magic data r hp
  unfold is_ultra_hdr has_gainmap_metadata
  rw [if_neg (by simp only [List.getD, List.get?_eq_getElem?] at h0 h1; simp [h0, h1, h2])]
  rw [hp]
  simp only [hxmp, hmpf]

/-- Witness for C10: a JPEG consisting of SOI, one APP2 segment with
payload `MPF\0`, and EOI. -/
theorem is_ultra_hdr_true_of_mpf_without_xmp_witness :
    is_ultra_hdr (fun _ => false) [255, 216, 255, 226, 0, 6, 77, 80, 70, 0, 255, 217] =
      some true :=
  is_ultra_hdr_true_of_mpf_without_xmp (fun _ => false) _
    ⟨[⟨.Soi, [], 0⟩, ⟨.App2, [77, 80, 70, 0], 2⟩, ⟨.Eoi, [], 10⟩], [], 0⟩
    rfl (by decide) (by decide)

theorem parseLoop_zero (l : List Nat) (pos : Nat) (segs : List JpegSegment)
    (scan : List Nat) (so : Nat) :
    parseLoop 0 l pos segs scan so = .error .outOfFuel := rfl

theorem parseLoop_nil (fuel pos : Nat) (segs : List JpegSegment)
    (scan : List Nat) (so : Nat) :
    parseLoop (fuel + 1) [] pos segs scan so = .ok ⟨segs, scan, so⟩ := rfl

theorem parseLoop_cons (fuel : Nat) (b : Nat) (rest : List Nat) (pos : Nat)
    (segs : List JpegSegment) (scan : List Nat) (so : Nat) :
    parseLoop (fuel + 1) (b :: rest) pos segs scan so =
      (if b ≠ 255 then
        parseLoop fuel rest (pos + 1) segs scan so
      else
        match rest.drop (rest.takeWhile (fun x => x == 255)).length with
        | [] =>
          parseLoop fuel [] (pos + 1 + (rest.takeWhile (fun x => x == 255)).length)
            (segs ++ [⟨.Other 255, [], pos⟩]) scan so
        | m :: rest2 =>
          match MarkerType.from_byte m with
          | .Eoi => .ok ⟨segs ++
              [⟨.Eoi, [], pos + 1 + (rest.takeWhile (fun x => x == 255)).length - 1⟩], scan, so⟩
          | .Soi => parseLoop fuel rest2
              (pos + 1 + (rest.takeWhile (fun x => x == 255)).length + 1) segs scan so
          | .Sos =>
            match rest2 with
            | hb :: lb :: rest3 =>
              if be16get hb lb < 2 then .error .underflowPanic
              else if rest3.length < be16get hb lb - 2 then .error .ioError
              else
                parseLoop fuel
                  (scanLoop (rest3.drop (be16get hb lb - 2))
                    (pos + 1 + (rest.takeWhile (fun x => x == 255)).length + 1 + be16get hb lb)
                    scan).rest
                  (scanLoop (rest3.drop (be16get hb lb - 2))
                    (pos + 1 + (rest.takeWhile (fun x => x == 255)).length + 1 + be16get hb lb)
                    scan).pos
                  (segs ++ [⟨.Sos, rest3.take (be16get hb lb - 2), pos⟩] ++
                    (match (scanLoop (rest3.drop (be16get hb lb - 2))
                        (pos + 1 + (rest.takeWhile (fun x => x == 255)).length + 1 + be16get hb lb)
                        scan).eoiAt with
                    | some e => [⟨.Eoi, [], e⟩]
                    | none => []))
                  (scanLoop (rest3.drop (be16get hb lb - 2))
                    (pos + 1 + (rest.takeWhile (fun x => x == 255)).length + 1 + be16get hb lb)
                    scan).scan
                  (pos + 1 + (rest.takeWhile (fun x => x == 255)).length + 1 + be16get hb lb)
            | _ => .error .ioError
          | mk =>
            if mk.has_length then
              match rest2 with
              | hb :: lb :: rest3 =>
                if be16get hb lb < 2 then .error .invalidJpeg
                else if rest3.length < be16get hb lb - 2 then .error .ioError
                else
                  parseLoop fuel (rest3.drop (be16get hb lb - 2))
                    (pos + 1 + (rest.takeWhile (fun x => x == 255)).length + 1 + be16get hb lb)
                    (segs ++ [⟨mk, rest3.take (be16get hb lb - 2), pos⟩]) scan so
              | _ => .error .ioError
            else parseLoop fuel rest2
              (pos + 1 + (rest.takeWhile (fun x => x == 255)).length + 1)
              (segs ++ [⟨mk, [], pos⟩]) scan so) := rfl

theorem segments_prefix_trans (segs X : List JpegSegment) (r : JpegParser)
    (h : ∃ t, r.segments = (segs ++ X) ++ t) : ∃ t, r.segments = segs ++ t := by
  obtain ⟨t, ht⟩ := h
  exact ⟨X ++ t, by rw [ht, List.append_assoc]⟩

theorem parseLoop_segments_prefix :
    ∀ (fuel : Nat) (l : List Nat) (pos : Nat) (segs : List JpegSegment)
      (scan : List Nat) (so : Nat) (r : JpegParser),
      parseLoop fuel l pos segs scan so = .ok r → ∃ t, r.segments = segs ++ t := by
  intro fuel
  induction fuel with
  | zero =>
    intro l pos segs scan so r h
    rw [parseLoop_zero] at h
    exact absurd h (by simp)
  | succ n ih =>
    intro l pos segs scan so r h
    cases l with
    | nil =>
      rw [parseLoop_nil] at h
      obtain rfl : (⟨segs, scan, so⟩ : JpegParser) = r := by simpa using h
      exact ⟨[], by simp⟩
    | cons b rest =>
      rw [parseLoop_cons] at h
      repeat' split at h
      all_goals first
        | exact ih _ _ _ _ _ _ h
        | exact segments_prefix_trans _ _ _ (ih _ _ _ _ _ _ h)
        | exact segments_prefix_trans _ _ _ (segments_prefix_trans _ _ _ (ih _ _ _ _ _ _ h))
        | (injection h with h2; subst h2; exact ⟨_, rfl⟩)
        | injection h

/-- C8, amended part: the first segment of every successful parse is the SOI
segment (it is seeded before the loop and the loop only appends). -/
theorem parse_ok_first_segment_soi (data : List Nat) (r : JpegParser)
    (h : JpegParser.parse data = .ok r) :
    r.segments.head? = some ⟨.Soi, [], 0⟩ := by
  unfold JpegParser.parse at h
  split_ifs at h
  obtain ⟨t, ht⟩ := parseLoop_segments_prefix _ _ _ _ _ _ _ h
  rw [ht]
  rfl

/-- Witness for the amended C8 theorem at the minimal JPEG `FF D8 FF D9`. -/
theorem parse_ok_first_segment_soi_witness :
    JpegParser.parse [255, 216, 255, 217] =
      .ok ⟨[⟨.Soi, [], 0⟩, ⟨.Eoi, [], 2⟩], [], 0⟩ ∧
    (⟨[⟨.Soi, [], 0⟩, ⟨.Eoi, [], 2⟩], [], 0⟩ : JpegParser).segments.head? =
      some ⟨.Soi, [], 0⟩ :=
  ⟨rfl, parse_ok_first_segment_soi [255, 216, 255, 217] _ rfl⟩

/-- C8, counterexample: the input `FF D8 FF DA 00 02 FF DA 00 02` parses
successfully into segments SOI, SOS, SOS: the last segment is not EOI and
two SOS segments are recorded, so the file-model invariant fails on a
successful parse. -/
theorem parse_file_model_invariant_counterexample :
    JpegParser.parse [255, 216, 255, 218, 0, 2, 255, 218, 0, 2] =
      .ok ⟨[⟨.Soi, [], 0⟩, ⟨.Sos, [], 2⟩, ⟨.Sos, [], 6⟩], [], 10⟩ ∧
    ¬ fileModelInvariant ⟨[⟨.Soi, [], 0⟩, ⟨.Sos, [], 2⟩, ⟨.Sos, [], 6⟩], [], 10⟩ :=
  ⟨rfl, by unfold fileModelInvariant; decide⟩

theorem exists_lt_three_iff (P : Nat → Prop) : (∃ i, i < 3 ∧ P i) ↔ P 0 ∨ P 1 ∨ P 2 := by
  constructor
  · rintro ⟨i, hi, hp⟩
    interval_cases i <;> tauto
  · rintro (h | h | h)
    · exact ⟨0, by omega, h⟩
    · exact ⟨1, by omega, h⟩
    · exact ⟨2, by omega, h⟩

theorem ite_err_self {c : Prop} [Decidable c] (e : Except MetaErr Unit) (k : MetaErr) :
    ((if c then Except.error k else e) = .error k) ↔ c ∨ e = .error k := by
  split_ifs with h <;> simp [h]

theorem ite_errCap_eq_metadata {c : Prop} [Decidable c] (e : Except MetaErr Unit) :
    ((if c then Except.error MetaErr.invalidHdrCapacity else e) = .error .metadata) ↔
      ¬ c ∧ e = .error .metadata := by
  split_ifs with h <;> simp [h]

theorem ite_errMeta_eq_cap {c : Prop} [Decidable c] (e : Except MetaErr Unit) :
    ((if c then Except.error MetaErr.metadata else e) = .error .invalidHdrCapacity) ↔
      ¬ c ∧ e = .error .invalidHdrCapacity := by
  split_ifs with h <;> simp [h]

theorem ite_ok_iff {c : Prop} [Decidable c] (e : Except MetaErr Unit) (k : MetaErr) :
    ((if c then Except.error k else e) = .ok ()) ↔ ¬ c ∧ e = .ok () := by
  split_ifs with h <;> simp [h]

theorem validate_metadata_err_metadata (m : GainMapMetadata) :
    validate_metadata m = .error .metadata ↔ metaBadCond m := by
  unfold validate_metadata metaBadCond
  rw [exists_lt_three_iff, exists_lt_three_iff]
  simp only [ite_err_self, ite_errCap_eq_metadata]
  simp only [show ((Except.ok () : Except MetaErr Unit) = .error .metadata) ↔ False by simp]
  tauto

theorem validate_metadata_err_cap (m : GainMapMetadata) :
    validate_metadata m = .error .invalidHdrCapacity ↔
      (¬ metaBadCond m ∧ capBadCond m) := by
  unfold validate_metadata metaBadCond capBadCond
  rw [exists_lt_three_iff, exists_lt_three_iff]
  simp only [ite_errMeta_eq_cap, ite_err_self]
  simp only [show ((Except.ok () : Except MetaErr Unit) = .error .invalidHdrCapacity) ↔ False
    by simp]
  tauto

theorem validate_metadata_ok_iff (m : GainMapMetadata) :
    validate_metadata m = .ok () ↔ (¬ metaBadCond m ∧ ¬ capBadCond m) := by
  unfold validate_metadata metaBadCond capBadCond
  rw [exists_lt_three_iff, exists_lt_three_iff]
  simp only [ite_ok_iff]
  tauto

/-- C6: validate_metadata errs exactly when a per-channel array does not
have length 3, or min exceeds max on some channel, or some gamma is
non-positive, or the hdr-capacity window is inverted; the first three
families are reported with the `metadata` kind and the capacity case (when
no metadata-kind failure precedes it) with the `invalidHdrCapacity` kind. -/
theorem validate_metadata_spec (m : GainMapMetadata) :
    (validate_metadata m ≠ .ok () ↔ metaBadCond m ∨ capBadCond m) ∧
    (validate_metadata m = .error .metadata ↔ metaBadCond m) ∧
    (validate_metadata m = .error .invalidHdrCapacity ↔
      (¬ metaBadCond m ∧ capBadCond m)) := by
  refine ⟨?_, validate_metadata_err_metadata m, validate_metadata_err_cap m⟩
  rw [Ne, validate_metadata_ok_iff]
  tauto

theorem add_sample_min_ratios (s : MetadataComputer) (f : Fin 3 → Option ℚ) (i : Fin 3) :
    (s.add_sample f).min_ratios i =
      (match f i with
      | none => s.min_ratios i
      | some v => optFold min (s.min_ratios i) v) := by
  unfold MetadataComputer.add_sample optFold
  rcases hf : f i with _ | v <;> rcases hs : s.min_ratios i with _ | w <;> simp [hf, hs]

theorem add_sample_max_ratios (s : MetadataComputer) (f : Fin 3 → Option ℚ) (i : Fin 3) :
    (s.add_sample f).max_ratios i =
      (match f i with
      | none => s.max_ratios i
      | some v => optFold max (s.max_ratios i) v) := by
  unfold MetadataComputer.add_sample optFold
  rcases hf : f i with _ | v <;> rcases hs : s.max_ratios i with _ | w <;> simp [hf, hs]

theorem foldl_add_sample_min (samples : List (Fin 3 → Option ℚ)) (i : Fin 3) :
    ∀ s0 : MetadataComputer,
      (samples.foldl MetadataComputer.add_sample s0).min_ratios i =
        (samples.filterMap (fun f => f i)).foldl (optFold min) (s0.min_ratios i) := by
  induction samples with
  | nil => intro s0; rfl
  | cons f rest ih =>
    intro s0
    rw [List.foldl_cons, ih, List.filterMap_cons]
    rcases hf : f i with _ | v
    · rw [add_sample_min_ratios]
      simp [hf]
    · rw [add_sample_min_ratios]
      simp [hf]

theorem foldl_add_sample_max (samples : List (Fin 3 → Option ℚ)) (i : Fin 3) :
    ∀ s0 : MetadataComputer,
      (samples.foldl MetadataComputer.add_sample s0).max_ratios i =
        (samples.filterMap (fun f => f i)).foldl (optFold max) (s0.max_ratios i) := by
  induction samples with
  | nil => intro s0; rfl
  | cons f rest ih =>
    intro s0
    rw [List.foldl_cons, ih, List.filterMap_cons]
    rcases hf : f i with _ | v
    · rw [add_sample_max_ratios]
      simp [hf]
    · rw [add_sample_max_ratios]
      simp [hf]

theorem foldl_optFold_isSome (op : ℚ → ℚ → ℚ) :
    ∀ (l : List ℚ) (a : Option ℚ), (l.foldl (optFold op) a).isSome ↔ a.isSome ∨ l ≠ [] := by
  intro l
  induction l with
  | nil => intro a; simp
  | cons v rest ih =>
    intro a
    rw [List.foldl_cons, ih]
    rcases a with _ | w <;> simp [optFold]

/-- C7: for every stream of accepted per-channel log-ratio samples and every
target capacity, compute returns metadata with, per channel, min gain
`max(observed_min - 0.1, -2)` and max gain
`min(observed_max + 0.1, target + 1)` when the channel received at least one
accepted sample (the observed extremum is defined) and `[0, target]`
otherwise, gamma `[1,1,1]`, offsets `1/64`, capacity window `[0, target]`,
version "1.0" and an SDR base rendition; and the observed extremum is
defined exactly when some sample of the stream was accepted on that
channel. -/
theorem metadata_computer_compute_spec (samples : List (Fin 3 → Option ℚ)) (t : ℚ) :
    (samples.foldl MetadataComputer.add_sample MetadataComputer.new).compute t =
      { version := "1.0", base_rendition_is_hdr := false,
        gain_map_min := (List.finRange 3).map (fun i =>
          match observedMin samples i with
          | some v => max (v - 1/10) (-2)
          | none => 0),
        gain_map_max := (List.finRange 3).map (fun i =>
          match observedMax samples i with
          | some v => min (v + 1/10) (t + 1)
          | none => t),
        gamma := [1, 1, 1], offset_sdr := [1/64, 1/64, 1/64],
        offset_hdr := [1/64, 1/64, 1/64],
        hdr_capacity_min := 0, hdr_capacity_max := t } ∧
    (∀ i : Fin 3, (observedMin samples i).isSome ↔ ∃ f ∈ samples, (f i).isSome) ∧
    (∀ i : Fin 3, (observedMax samples i).isSome ↔ ∃ f ∈ samples, (f i).isSome) := by
  refine ⟨?_, ?_, ?_⟩
  · unfold MetadataComputer.compute observedMin observedMax
    simp only [foldl_add_sample_min, foldl_add_sample_max]
    rfl
  · intro i
    unfold observedMin
    rw [foldl_optFold_isSome]
    simp [ne_eq, List.filterMap_eq_nil_iff, Option.isSome_iff_ne_none]
  · intro i
    unfold observedMax
    rw [foldl_optFold_isSome]
    simp [ne_eq, List.filterMap_eq_nil_iff, Option.isSome_iff_ne_none]

set_option maxRecDepth 4000 in
theorem from_byte_to_byte : ∀ m < 256, (MarkerType.from_byte m).to_byte = m := by decide

set_option maxRecDepth 4000 in
theorem from_byte_facts : ∀ m < 256, ¬ (m = 0 ∨ m = 216 ∨ m = 217 ∨ m = 218 ∨ m = 255) →
    (MarkerType.from_byte m ≠ .Soi ∧ MarkerType.from_byte m ≠ .Eoi ∧
     MarkerType.from_byte m ≠ .Sos ∧ (MarkerType.from_byte m).has_length = true) := by decide

theorem scanLoop_nil (p : Nat) (s : List Nat) : scanLoop [] p s = ⟨s, [], p, none⟩ := rfl

theorem scanLoop_ff_cons (x : Nat) (rest2 : List Nat) (p : Nat) (s : List Nat) :
    scanLoop (255 :: x :: rest2) p s =
      (if x = 0 then scanLoop rest2 (p + 2) (s ++ [255, 0])
      else if x = 217 then ⟨s, rest2, p + 2, some p⟩
      else if 208 ≤ x ∧ x ≤ 215 then scanLoop rest2 (p + 2) (s ++ [255, x])
      else ⟨s, 255 :: x :: rest2, p, none⟩) := rfl

theorem scanLoop_ne (b : Nat) (rest : List Nat) (p : Nat) (s : List Nat) (hb : b ≠ 255) :
    scanLoop (b :: rest) p s = scanLoop rest (p + 1) (s ++ [b]) := by
  cases rest with
  | nil =>
    rw [show scanLoop [b] p s =
        (if b = 255 then ⟨s, [], p + 1, none⟩ else scanLoop [] (p + 1) (s ++ [b])) from rfl,
      if_neg hb]
  | cons x rest2 =>
    rw [show scanLoop (b :: x :: rest2) p s =
        (if b = 255 then
          (if x = 0 then scanLoop rest2 (p + 2) (s ++ [255, 0])
          else if x = 217 then ⟨s, rest2, p + 2, some p⟩
          else if 208 ≤ x ∧ x ≤ 215 then scanLoop rest2 (p + 2) (s ++ [255, x])
          else ⟨s, b :: x :: rest2, p, none⟩)
        else scanLoop (x :: rest2) (p + 1) (s ++ [b])) from rfl,
      if_neg hb]

theorem wfScan_ff_cons (x : Nat) (rest2 : List Nat) :
    wfScan (255 :: x :: rest2) =
      ((x == 0 || (decide (208 ≤ x) && decide (x ≤ 215))) && wfScan rest2) := rfl

theorem wfScan_ne (b : Nat) (rest : List Nat) (hb : b ≠ 255) :
    wfScan (b :: rest) = (decide (b < 256) && wfScan rest) := by
  cases rest with
  | nil =>
    rw [show wfScan [b] = (if b = 255 then false else decide (b < 256) && wfScan []) from rfl,
      if_neg hb]
  | cons x rest2 =>
    rw [show wfScan (b :: x :: rest2) =
        (if b = 255 then (x == 0 || (decide (208 ≤ x) && decide (x ≤ 215))) && wfScan rest2
        else decide (b < 256) && wfScan (x :: rest2)) from rfl,
      if_neg hb]

theorem scanLoop_wf_aux :
    ∀ (n : Nat) (scan : List Nat), scan.length ≤ n → wfScan scan = true →
      ∀ (tail : List Nat) (p : Nat) (s : List Nat),
        scanLoop (scan ++ 255 :: 217 :: tail) p s =
          ⟨s ++ scan, tail, p + scan.length + 2, some (p + scan.length)⟩ := by
  intro n
  induction n with
  | zero =>
    intro scan hlen _ tail p s
    obtain rfl : scan = [] := List.length_eq_zero.mp (Nat.le_zero.mp hlen)
    rw [List.nil_append, scanLoop_ff_cons]
    simp
  | succ n ih =>
    intro scan hlen hwf tail p s
    cases scan with
    | nil =>
      rw [List.nil_append, scanLoop_ff_cons]
      simp
    | cons b rest =>
      simp only [List.length_cons] at hlen
      by_cases hb : b = 255
      · subst hb
        cases rest with
        | nil => simp [wfScan] at hwf
        | cons x rest2 =>
          rw [wfScan_ff_cons] at hwf
          simp only [Bool.and_eq_true, Bool.or_eq_true, beq_iff_eq, decide_eq_true_eq,
            Bool.and_eq_true] at hwf
          obtain ⟨hx, hwf2⟩ := hwf
          simp only [List.length_cons] at hlen
          have hlen2 : rest2.length ≤ n := by omega
          rw [List.cons_append, List.cons_append, scanLoop_ff_cons]
          rcases hx with hx0 | ⟨hx1, hx2⟩
          · subst hx0
            rw [if_pos rfl, ih rest2 hlen2 hwf2 tail (p + 2) (s ++ [255, 0]),
              ScanOut.mk.injEq]
            refine ⟨by simp, rfl, ?_, ?_⟩
            · simp only [List.length_cons]
              omega
            · simp only [List.length_cons, Option.some.injEq]
              omega
          · rw [if_neg (by omega), if_neg (by omega), if_pos ⟨hx1, hx2⟩,
              ih rest2 hlen2 hwf2 tail (p + 2) (s ++ [255, x]), ScanOut.mk.injEq]
            refine ⟨by simp, rfl, ?_, ?_⟩
            · simp only [List.length_cons]
              omega
            · simp only [List.length_cons, Option.some.injEq]
              omega
      · rw [wfScan_ne b rest hb] at hwf
        simp only [Bool.and_eq_true, decide_eq_true_eq] at hwf
        have hlen2 : rest.length ≤ n := by omega
        rw [List.cons_append, scanLoop_ne b _ p s hb,
          ih rest hlen2 hwf.2 tail (p + 1) (s ++ [b]), ScanOut.mk.injEq]
        refine ⟨by simp, rfl, ?_, ?_⟩
        · simp only [List.length_cons]
          omega
        · simp only [List.length_cons, Option.some.injEq]
          omega

theorem scanLoop_wf (scan : List Nat) (hwf : wfScan scan = true)
    (tail : List Nat) (p : Nat) (s : List Nat) :
    scanLoop (scan ++ 255 :: 217 :: tail) p s =
      ⟨s ++ scan, tail, p + scan.length + 2, some (p + scan.length)⟩ :=
  scanLoop_wf_aux scan.length scan le_rfl hwf tail p s

theorem be16get_be16 (n : Nat) (h : n ≤ 65535) :
    be16get (n % 65536 / 256) (n % 256) = n := by
  unfold be16get
  omega

theorem takeWhile_255_cons (m : Nat) (l : List Nat) (hm : m ≠ 255) :
    (m :: l).takeWhile (fun x => x == 255) = [] := by
  simp [List.takeWhile_cons, hm]

theorem parseLoop_mid_step (fuel : Nat) (m : Nat) (payload l : List Nat) (pos : Nat)
    (segs : List JpegSegment) (sc : List Nat) (so : Nat)
    (hm : m < 256) (hmex : ¬ (m = 0 ∨ m = 216 ∨ m = 217 ∨ m = 218 ∨ m = 255))
    (hplen : payload.length ≤ 65533) :
    parseLoop (fuel + 1) (([255, m] ++ be16 (payload.length + 2) ++ payload) ++ l)
        pos segs sc so =
      parseLoop fuel l (pos + 4 + payload.length)
        (segs ++ [⟨MarkerType.from_byte m, payload, pos⟩]) sc so := by
  obtain ⟨hsoi, heoi, hsos, hlen⟩ := from_byte_facts m hm hmex
  have hm255 : m ≠ 255 := by tauto
  simp only [be16, List.cons_append, List.nil_append, List.append_assoc]
  rw [parseLoop_cons, if_neg (by simp), takeWhile_255_cons m _ hm255]
  simp only [List.length_nil, List.drop_zero]
  rw [if_pos hlen,
    be16get_be16 (payload.length + 2) (by omega),
    if_neg (by omega),
    if_neg (by simp only [List.length_append]; omega),
    show payload.length + 2 - 2 = payload.length from by omega,
    List.drop_left, List.take_left,
    show pos + 1 + 0 + 1 + (payload.length + 2) = pos + 4 + payload.length from by omega]

theorem encMid_length (s : MidSeg) : (encMid s).length = 4 + s.payload.length := by
  simp [encMid, be16]
  omega

theorem parseLoop_mids (mids : List MidSeg) :
    ∀ (fuel : Nat) (l : List Nat) (pos : Nat) (segs : List JpegSegment)
      (sc : List Nat) (so : Nat),
      (∀ s ∈ mids, s.wf) →
      parseLoop (mids.length + fuel) ((mids.map encMid).flatten ++ l) pos segs sc so =
        parseLoop fuel l (pos + ((mids.map encMid).flatten).length)
          (segs ++ midSegsFrom pos mids) sc so := by
  induction mids with
  | nil =>
    intro fuel l pos segs sc so _
    simp [midSegsFrom]
  | cons s rest ih =>
    intro fuel l pos segs sc so hw
    obtain ⟨hm, h0, hC2, hD8, hD9, hDA, hFF, hplen, hbytes⟩ := hw s (by simp)
    rw [show (s :: rest).length + fuel = rest.length + fuel + 1 from by
        simp only [List.length_cons]; omega,
      List.map_cons, List.flatten_cons, List.append_assoc,
      show encMid s = [255, s.m] ++ be16 (s.payload.length + 2) ++ s.payload from rfl,
      parseLoop_mid_step (rest.length + fuel) s.m s.payload
        ((rest.map encMid).flatten ++ l) pos segs sc so hm (by tauto) hplen,
      ih fuel l (pos + 4 + s.payload.length) _ sc so (fun t ht => hw t (by simp [ht])),
      show midSegsFrom pos (s :: rest) =
        ⟨MarkerType.from_byte s.m, s.payload, pos⟩ ::
          midSegsFrom (pos + (encMid s).length) rest from rfl,
      encMid_length]
    congr 1
    · simp only [List.map_cons, List.flatten_cons, List.length_append, encMid_length,
        be16, List.length_cons, List.length_nil]
      omega
    · rw [Nat.add_assoc]
      simp

theorem parseLoop_sos_cons (fuel hb lb : Nat) (rest3 : List Nat) (pos : Nat)
    (segs : List JpegSegment) (sc : List Nat) (so : Nat) :
    parseLoop (fuel + 1) (255 :: 218 :: hb :: lb :: rest3) pos segs sc so =
      (if be16get hb lb < 2 then .error .underflowPanic
      else if rest3.length < be16get hb lb - 2 then .error .ioError
      else
        parseLoop fuel
          (scanLoop (rest3.drop (be16get hb lb - 2)) (pos + 2 + be16get hb lb) sc).rest
          (scanLoop (rest3.drop (be16get hb lb - 2)) (pos + 2 + be16get hb lb) sc).pos
          (segs ++ [⟨.Sos, rest3.take (be16get hb lb - 2), pos⟩] ++
            (match (scanLoop (rest3.drop (be16get hb lb - 2))
                (pos + 2 + be16get hb lb) sc).eoiAt with
            | some e => [⟨.Eoi, [], e⟩]
            | none => []))
          (scanLoop (rest3.drop (be16get hb lb - 2)) (pos + 2 + be16get hb lb) sc).scan
          (pos + 2 + be16get hb lb)) := rfl

theorem parseLoop_sos_step (fuel : Nat) (sp scan tail : List Nat) (pos : Nat)
    (segs : List JpegSegment) (sc : List Nat) (so : Nat)
    (hsp : sp.length ≤ 65533) (hwf : wfScan scan = true) :
    parseLoop (fuel + 1)
        (([255, 218] ++ be16 (sp.length + 2) ++ sp) ++ (scan ++ 255 :: 217 :: tail))
        pos segs sc so =
      parseLoop fuel tail (pos + 4 + sp.length + scan.length + 2)
        (segs ++ [⟨.Sos, sp, pos⟩] ++ [⟨.Eoi, [], pos + 4 + sp.length + scan.length⟩])
        (sc ++ scan) (pos + 4 + sp.length) := by
  simp only [be16, List.cons_append, List.nil_append, List.append_assoc]
  rw [parseLoop_sos_cons,
    be16get_be16 (sp.length + 2) (by omega),
    if_neg (by omega),
    if_neg (by simp only [List.length_append, List.length_cons]; omega),
    show sp.length + 2 - 2 = sp.length from by omega,
    List.drop_left, List.take_left,
    scanLoop_wf scan hwf tail (pos + 2 + (sp.length + 2)) sc,
    show pos + 2 + (sp.length + 2) + scan.length + 2
        = pos + 4 + sp.length + scan.length + 2 from by omega,
    show pos + 2 + (sp.length + 2) + scan.length
        = pos + 4 + sp.length + scan.length from by omega,
    show pos + 2 + (sp.length + 2) = pos + 4 + sp.length from by omega]
  simp

theorem encMids_length_ge (mids : List MidSeg) :
    mids.length ≤ ((mids.map encMid).flatten).length := by
  induction mids with
  | nil => simp
  | cons s rest ih =>
    simp only [List.map_cons, List.flatten_cons, List.length_append, List.length_cons,
      encMid_length]
    omega

theorem parse_fileOf (mids : List MidSeg) (sp scan : List Nat)
    (hm : ∀ s ∈ mids, s.wf) (hsp : sp.length ≤ 65533) (hsc : wfScan scan = true) :
    JpegParser.parse (fileOf mids sp scan) =
      .ok ⟨⟨.Soi, [], 0⟩ :: (midSegsFrom 2 mids ++
          [⟨.Sos, sp, 2 + ((mids.map encMid).flatten).length⟩,
           ⟨.Eoi, [], 2 + ((mids.map encMid).flatten).length + 4 + sp.length + scan.length⟩]),
        scan, 2 + ((mids.map encMid).flatten).length + 4 + sp.length⟩ := by
  have hge := encMids_length_ge mids
  have h2 : ¬ (fileOf mids sp scan).length < 2 := by
    simp [fileOf]
  have hg : ¬ ((fileOf mids sp scan).getD 0 0 ≠ 255 ∨ (fileOf mids sp scan).getD 1 0 ≠ 216) := by
    simp [fileOf]
  have hdrop : (fileOf mids sp scan).drop 2 =
      (mids.map encMid).flatten ++
        (([255, 218] ++ be16 (sp.length + 2) ++ sp) ++ (scan ++ 255 :: 217 :: ([] : List Nat))) := by
    simp [fileOf, List.append_assoc]
  unfold JpegParser.parse
  rw [if_neg h2, if_neg hg, hdrop,
    show (fileOf mids sp scan).length + 1 =
      mids.length + ((fileOf mids sp scan).length + 1 - mids.length) from by
        simp only [fileOf, be16, List.length_append, List.length_cons, List.length_nil]
        omega,
    parseLoop_mids mids _ _ _ _ _ _ hm,
    show (fileOf mids sp scan).length + 1 - mids.length =
      ((fileOf mids sp scan).length - mids.length - 1) + 1 + 1 from by
        simp only [fileOf, be16, List.length_append, List.length_cons, List.length_nil]
        omega,
    parseLoop_sos_step _ sp scan [] _ _ _ _ hsp hsc,
    parseLoop_nil]
  simp

theorem writeSegBytes_std (scan payload : List Nat) (pos : Nat) (mk : MarkerType)
    (hsoi : mk ≠ .Soi) (heoi : mk ≠ .Eoi) (hsos : mk ≠ .Sos) (hlen : mk.has_length = true) :
    writeSegBytes scan ⟨mk, payload, pos⟩ =
      [255, mk.to_byte] ++ be16 (payload.length + 2) ++ payload := by
  cases mk <;> simp_all [writeSegBytes]

theorem write_midSegs (scan : List Nat) :
    ∀ (mids : List MidSeg) (pos : Nat), (∀ s ∈ mids, s.wf) →
      ((midSegsFrom pos mids).map (writeSegBytes scan)).flatten = (mids.map encMid).flatten := by
  intro mids
  induction mids with
  | nil => intro pos _; rfl
  | cons s rest ih =>
    intro pos hw
    obtain ⟨hb, h0, hC2, hD8, hD9, hDA, hFF, hplen, hbytes⟩ := hw s (by simp)
    obtain ⟨hsoi, heoi, hsos, hlen⟩ := from_byte_facts s.m hb (by tauto)
    simp only [midSegsFrom, List.map_cons, List.flatten_cons]
    rw [writeSegBytes_std scan s.payload pos (MarkerType.from_byte s.m) hsoi heoi hsos hlen,
      from_byte_to_byte s.m hb, ih (pos + (encMid s).length) (fun t ht => hw t (by simp [ht]))]
    rfl

/-- **C4.** For every input JPEG of the file model (SOI, any list of
well-formed non-progressive middle segments, one SOS segment with an
in-range length, well-formed entropy-coded scan data, EOI), parsing the
bytes with `JpegParser.parse` succeeds and re-serializing the resulting
segment list and scan buffer with `JpegWriter.write` reproduces the input
byte-for-byte. -/
theorem parse_write_roundtrip (mids : List MidSeg) (sp scan : List Nat)
    (hm : ∀ s ∈ mids, s.wf) (hsp : sp.length ≤ 65533) (hsc : wfScan scan = true) :
    ∃ r, JpegParser.parse (fileOf mids sp scan) = .ok r ∧
      JpegWriter.write r.segments r.scan_data = fileOf mids sp scan := by
  refine ⟨_, parse_fileOf mids sp scan hm hsp hsc, ?_⟩
  unfold JpegWriter.write
  simp only [List.map_cons, List.map_append, List.map_nil, List.flatten_cons,
    List.flatten_append, List.flatten_nil]
  rw [write_midSegs scan mids 2 hm]
  simp [writeSegBytes, fileOf, List.append_assoc]

/-- Witness for C4: the roundtrip theorem applied to a concrete file with
one APP0 segment, a one-byte SOS payload and a three-byte scan containing
a stuffed `FF 00`. -/
theorem parse_write_roundtrip_witness :
    (∀ s ∈ [MidSeg.mk 224 [1]], s.wf) ∧ ([8] : List Nat).length ≤ 65533 ∧
      wfScan [7, 255, 0] = true ∧
      (∃ r, JpegParser.parse (fileOf [MidSeg.mk 224 [1]] [8] [7, 255, 0]) = .ok r ∧
        JpegWriter.write r.segments r.scan_data = fileOf [MidSeg.mk 224 [1]] [8] [7, 255, 0]) :=
  ⟨by simp only [List.mem_singleton, forall_eq, MidSeg.wf]; decide, by decide, by decide,
    parse_write_roundtrip [MidSeg.mk 224 [1]] [8] [7, 255, 0]
      (by simp only [List.mem_singleton, forall_eq, MidSeg.wf]; decide) (by decide) (by decide)⟩
